import Mathlib

/-
Verification of the safe transactional access layer of danburkert/lmdb-rs
against its natural-language specification.

The development shallowly embeds the Rust wrapper code (src/src/error.rs,
src/src/transaction.rs, src/src/cursor.rs, src/src/environment.rs) as Lean
functions.  The underlying storage engine (liblmdb) is an external black box
per the spec's scope statement; where a property depends on engine behavior,
the engine operation is modelled from the spec's description and its doc
comment says so explicitly.
-/

set_option autoImplicit false

namespace Lmdb

/-! ### Engine status codes, embedded from src/lmdb-sys/src/lib.rs -/

def MDB_SUCCESS : Int := 0
def MDB_KEYEXIST : Int := -30799
def MDB_NOTFOUND : Int := -30798
def MDB_PAGE_NOTFOUND : Int := -30797
def MDB_CORRUPTED : Int := -30796
def MDB_PANIC : Int := -30795
def MDB_VERSION_MISMATCH : Int := -30794
def MDB_INVALID : Int := -30793
def MDB_MAP_FULL : Int := -30792
def MDB_DBS_FULL : Int := -30791
def MDB_READERS_FULL : Int := -30790
def MDB_TLS_FULL : Int := -30789
def MDB_TXN_FULL : Int := -30788
def MDB_CURSOR_FULL : Int := -30787
def MDB_PAGE_FULL : Int := -30786
def MDB_MAP_RESIZED : Int := -30785
def MDB_INCOMPATIBLE : Int := -30784
def MDB_BAD_RSLOT : Int := -30783
def MDB_BAD_TXN : Int := -30782
def MDB_BAD_VALSIZE : Int := -30781
def MDB_BAD_DBI : Int := -30780

/-! ### Error taxonomy, embedded from src/src/error.rs -/

/-- The `LmdbError` enumeration from src/src/error.rs: twenty named conditions
mirroring the engine status codes, plus the `Other` fallback carrying the raw
code. -/
inductive LmdbError where
  | KeyExist
  | NotFound
  | PageNotFound
  | Corrupted
  | Panic
  | VersionMismatch
  | Invalid
  | MapFull
  | DbsFull
  | ReadersFull
  | TlsFull
  | TxnFull
  | CursorFull
  | PageFull
  | MapResized
  | Incompatible
  | BadRslot
  | BadTxn
  | BadValSize
  | BadDbi
  | Other (code : Int)
  deriving DecidableEq

/-- Embeds `LmdbError::from_err_code` (src/src/error.rs lines 54-78): the match
over the twenty engine codes with the `Other` fallback for everything else. -/
def LmdbError.from_err_code (err_code : Int) : LmdbError :=
  if err_code = MDB_KEYEXIST then .KeyExist
  else if err_code = MDB_NOTFOUND then .NotFound
  else if err_code = MDB_PAGE_NOTFOUND then .PageNotFound
  else if err_code = MDB_CORRUPTED then .Corrupted
  else if err_code = MDB_PANIC then .Panic
  else if err_code = MDB_VERSION_MISMATCH then .VersionMismatch
  else if err_code = MDB_INVALID then .Invalid
  else if err_code = MDB_MAP_FULL then .MapFull
  else if err_code = MDB_DBS_FULL then .DbsFull
  else if err_code = MDB_READERS_FULL then .ReadersFull
  else if err_code = MDB_TLS_FULL then .TlsFull
  else if err_code = MDB_TXN_FULL then .TxnFull
  else if err_code = MDB_CURSOR_FULL then .CursorFull
  else if err_code = MDB_PAGE_FULL then .PageFull
  else if err_code = MDB_MAP_RESIZED then .MapResized
  else if err_code = MDB_INCOMPATIBLE then .Incompatible
  else if err_code = MDB_BAD_RSLOT then .BadRslot
  else if err_code = MDB_BAD_TXN then .BadTxn
  else if err_code = MDB_BAD_VALSIZE then .BadValSize
  else if err_code = MDB_BAD_DBI then .BadDbi
  else .Other err_code

/-- Embeds `LmdbError::to_err_code` (src/src/error.rs lines 80-104). -/
def LmdbError.to_err_code : LmdbError → Int
  | .KeyExist => MDB_KEYEXIST
  | .NotFound => MDB_NOTFOUND
  | .PageNotFound => MDB_PAGE_NOTFOUND
  | .Corrupted => MDB_CORRUPTED
  | .Panic => MDB_PANIC
  | .VersionMismatch => MDB_VERSION_MISMATCH
  | .Invalid => MDB_INVALID
  | .MapFull => MDB_MAP_FULL
  | .DbsFull => MDB_DBS_FULL
  | .ReadersFull => MDB_READERS_FULL
  | .TlsFull => MDB_TLS_FULL
  | .TxnFull => MDB_TXN_FULL
  | .CursorFull => MDB_CURSOR_FULL
  | .PageFull => MDB_PAGE_FULL
  | .MapResized => MDB_MAP_RESIZED
  | .Incompatible => MDB_INCOMPATIBLE
  | .BadRslot => MDB_BAD_RSLOT
  | .BadTxn => MDB_BAD_TXN
  | .BadValSize => MDB_BAD_VALSIZE
  | .BadDbi => MDB_BAD_DBI
  | .Other err_code => err_code

/-- Embeds `lmdb_result` (src/src/error.rs lines 115-121): success status maps
to `Ok(())`, any other status to `Err` of the translated error kind. -/
def lmdb_result (err_code : Int) : Except LmdbError Unit :=
  if err_code = MDB_SUCCESS then .ok () else .error (LmdbError.from_err_code err_code)

/-! ### The storage engine's data model

The spec (section 1) treats the engine as a black box exposing get/put/delete
and cursors over sorted keyspaces, so the engine state and its operations
below are modelled from the spec rather than embedded from source. -/

/-- Keys and values are opaque byte sequences (spec section 6). -/
abbrev Bytes := List Nat

/-- Lexicographic byte-string order used by the engine's default key and
duplicate comparison (spec section 3: lexicographic key order, sorted
duplicate values). -/
def bytesLt : Bytes → Bytes → Bool
  | [], [] => false
  | [], _ :: _ => true
  | _ :: _, [] => false
  | a :: as, b :: bs => if a < b then true else if b < a then false else bytesLt as bs

/-- Modelled from the spec: one database (named keyspace) inside the engine — a
list of key/value byte pairs in engine order, together with the
duplicate-sort configuration chosen when the database was created
(`MDB_DUPSORT`, spec section 3). -/
structure Store where
  data : List (Bytes × Bytes)
  dupSort : Bool
  deriving DecidableEq

/-- First data item stored for a key, in engine order. -/
def firstValue (key : Bytes) : List (Bytes × Bytes) → Option Bytes
  | [] => none
  | e :: t => if e.1 = key then some e.2 else firstValue key t

/-- All data items stored for a key, in engine order. -/
def valuesFor (key : Bytes) : List (Bytes × Bytes) → List Bytes
  | [] => []
  | e :: t => if e.1 = key then e.2 :: valuesFor key t else valuesFor key t

/-- Whether some entry carries the key. -/
def hasKey (key : Bytes) : List (Bytes × Bytes) → Bool
  | [] => false
  | e :: t => if e.1 = key then true else hasKey key t

/-- Whether the exact key/value pair is present. -/
def hasPair (key val : Bytes) : List (Bytes × Bytes) → Bool
  | [] => false
  | e :: t => if e = (key, val) then true else hasPair key val t

/-- Removes every entry carrying the key, keeping all others. -/
def removeKey (key : Bytes) : List (Bytes × Bytes) → List (Bytes × Bytes)
  | [] => []
  | e :: t => if e.1 = key then removeKey key t else e :: removeKey key t

/-- Removes the first entry equal to the exact key/value pair, keeping all
others. -/
def removePair (key val : Bytes) : List (Bytes × Bytes) → List (Bytes × Bytes)
  | [] => []
  | e :: t => if e = (key, val) then t else e :: removePair key val t

/-- Replaces the data item of an existing key, or inserts the pair in key
order: the engine's put on a database without sorted duplicates. -/
def putUnique (key val : Bytes) : List (Bytes × Bytes) → List (Bytes × Bytes)
  | [] => [(key, val)]
  | e :: t =>
    if e.1 = key then (key, val) :: t
    else if bytesLt key e.1 then (key, val) :: e :: t
    else e :: putUnique key val t

/-- Inserts the pair in key order and, among duplicates of the key, in sorted
data order; re-inserting an already present pair leaves the data unchanged:
the engine's put on an `MDB_DUPSORT` database. -/
def insertDup (key val : Bytes) : List (Bytes × Bytes) → List (Bytes × Bytes)
  | [] => [(key, val)]
  | e :: t =>
    if bytesLt key e.1 then (key, val) :: e :: t
    else if e.1 = key then
      if bytesLt val e.2 then (key, val) :: e :: t
      else if e.2 = val then e :: t
      else e :: insertDup key val t
    else e :: insertDup key val t

/-! ### Engine operations, modelled from the spec -/

/-- Modelled from the spec: `mdb_get` looks up the first data item stored for
the key and reports `MDB_NOTFOUND` when the key is absent (spec section 4.2).
Returns the engine status together with the located bytes. -/
def mdb_get (s : Store) (key : Bytes) : Int × Bytes :=
  match firstValue key s.data with
  | some v => (MDB_SUCCESS, v)
  | none => (MDB_NOTFOUND, [])

/-- Modelled from the spec: `mdb_put` with default write flags replaces any
previously existing key when duplicates are disallowed, or adds a duplicate
data item in sorted order when the database was created with `MDB_DUPSORT`
(spec section 4.2).  Capacity rejections (map full, transaction full) are
environment conditions outside this store model, so the modelled status is
success. -/
def mdb_put (s : Store) (key val : Bytes) : Store × Int :=
  (if s.dupSort then { s with data := insertDup key val s.data }
   else { s with data := putUnique key val s.data }, MDB_SUCCESS)

/-- Modelled from the spec: `mdb_del` removes all duplicate data items of the
key when no data item is given (and likewise when the database has no sorted
duplicates, where the data parameter is ignored); with a data item on an
`MDB_DUPSORT` database only the matching pair is removed.  When the addressed
key or pair is absent the engine reports `MDB_NOTFOUND` and the database is
unchanged (spec sections 4.2 and 8). -/
def mdb_del (s : Store) (key : Bytes) (data : Option Bytes) : Store × Int :=
  match data with
  | some v =>
    if s.dupSort then
      if hasPair key v s.data then
        ({ s with data := removePair key v s.data }, MDB_SUCCESS)
      else (s, MDB_NOTFOUND)
    else
      if hasKey key s.data then
        ({ s with data := removeKey key s.data }, MDB_SUCCESS)
      else (s, MDB_NOTFOUND)
  | none =>
    if hasKey key s.data then
      ({ s with data := removeKey key s.data }, MDB_SUCCESS)
    else (s, MDB_NOTFOUND)

/-! ### Transactions and the environment

The wrapper types from src/src/environment.rs and src/src/transaction.rs.
The opaque engine handles are replaced by the store contents they denote:
an environment holds the committed contents, a transaction the snapshot or
pending contents its engine handle points at (spec section 3). -/

/-- The `Environment` (src/src/environment.rs): owns the committed contents of
the keyspace the claims exercise. -/
structure Environment where
  store : Store
  deriving DecidableEq

/-- An `RwTransaction` (src/src/transaction.rs): a buffered set of pending
mutations over the snapshot taken at begin (spec section 3). -/
structure RwTransaction where
  pending : Store
  deriving DecidableEq

/-- An `RoTransaction` (src/src/transaction.rs): a consistent snapshot
established at begin (spec section 3). -/
structure RoTransaction where
  snapshot : Store
  deriving DecidableEq

/-- `Environment::begin_rw_txn`: the new write transaction's pending contents
start as the committed contents. -/
def Environment.begin_rw_txn (env : Environment) : RwTransaction :=
  ⟨env.store⟩

/-- `Environment::begin_ro_txn`: the reader sees the contents committed at
begin time. -/
def Environment.begin_ro_txn (env : Environment) : RoTransaction :=
  ⟨env.store⟩

/-- Embeds `RwTransaction::new` (src/src/transaction.rs lines 231-245): the
status of `mdb_txn_begin` — supplied by the engine as a parameter — is checked
through `lmdb_result` before the transaction is constructed. -/
def RwTransaction.new (env : Environment) (status : Int) : Except LmdbError RwTransaction :=
  match lmdb_result status with
  | .ok _ => .ok ⟨env.store⟩
  | .error e => .error e

/-- Embeds `TransactionExt::get` (src/src/transaction.rs lines 73-89): calls
`mdb_get` and matches on the status; `MDB_SUCCESS` yields the located byte
slice and any other status is translated through `LmdbError::from_err_code`. -/
def TransactionExt.get (s : Store) (key : Bytes) : Except LmdbError Bytes :=
  let r := mdb_get s key
  if r.1 = MDB_SUCCESS then .ok r.2 else .error (LmdbError.from_err_code r.1)

/-- Embeds `RwTransaction::put` (src/src/transaction.rs lines 280-297): feeds
the key and data to `mdb_put` and translates the engine status through
`lmdb_result`. -/
def RwTransaction.put (t : RwTransaction) (key val : Bytes) :
    RwTransaction × Except LmdbError Unit :=
  let r := mdb_put t.pending key val
  (⟨r.1⟩, lmdb_result r.2)

/-- Embeds `RwTransaction::del` (src/src/transaction.rs lines 334-351): feeds
the key and optional data item to `mdb_del` and translates the engine status
through `lmdb_result`. -/
def RwTransaction.del (t : RwTransaction) (key : Bytes) (data : Option Bytes) :
    RwTransaction × Except LmdbError Unit :=
  let r := mdb_del t.pending key data
  (⟨r.1⟩, lmdb_result r.2)

/-- Modelled from the spec: `mdb_txn_commit` either accepts the commit
(status `MDB_SUCCESS`), making the transaction's pending writes the new
committed contents, or rejects it with a nonzero status (map full, disk
full), leaving the committed contents exactly as before (spec sections 4.2
and 7).  Acceptance is the engine's choice, passed as a parameter. -/
def mdb_txn_commit (env : Environment) (t : RwTransaction) (status : Int) :
    Environment × Int :=
  if status = MDB_SUCCESS then (⟨t.pending⟩, MDB_SUCCESS) else (env, status)

/-- Embeds `TransactionExt::commit` (src/src/transaction.rs lines 32-38):
returns `lmdb_result(mdb_txn_commit(self.txn()))`; the transaction itself is
consumed (`mem::forget`), which Rust enforces at the type level. -/
def RwTransaction.commit (env : Environment) (t : RwTransaction) (status : Int) :
    Environment × Except LmdbError Unit :=
  let r := mdb_txn_commit env t status
  (r.1, lmdb_result r.2)

/-- Embeds `RwTransaction::begin_nested_txn` (src/src/transaction.rs lines
369-381): the code calls `mdb_txn_begin` with the parent's handle but discards
the returned status — whatever status the engine reports (the parameter), the
function returns `Ok` with the child transaction it constructed. -/
def RwTransaction.begin_nested_txn (t : RwTransaction) (status : Int) :
    Except LmdbError RwTransaction :=
  .ok ⟨t.pending⟩

/-! ### Database flag accessors (src/src/environment.rs and transaction.rs) -/

/-- The union of the `DatabaseFlags` bits from src/lmdb-sys/src/constants.rs:
`MDB_REVERSEKEY | MDB_DUPSORT | MDB_INTEGERKEY | MDB_DUPFIXED |
MDB_INTEGERDUP | MDB_REVERSEDUP`. -/
def DatabaseFlags.allBits : Nat := 0x02 ||| 0x04 ||| 0x08 ||| 0x10 ||| 0x20 ||| 0x40

/-- The bitflags `from_bits` constructor: defined exactly when the argument
contains no bit outside the known `DatabaseFlags` set. -/
def DatabaseFlags.from_bits (bits : Nat) : Option Nat :=
  if bits &&& DatabaseFlags.allBits = bits then some bits else none

/-- The bitflags `from_bits_truncate` constructor: keeps the known bits and
drops the rest. -/
def DatabaseFlags.from_bits_truncate (bits : Nat) : Nat :=
  bits &&& DatabaseFlags.allBits

/-- Modelled from the spec: `mdb_dbi_flags` reports the database's configured
option flags, which the engine draws from the `DatabaseFlags` set fixed at
creation (spec section 3: the handle carries its comparison/duplicate-key
configuration). -/
def mdb_dbi_flags (configured : Nat) : Nat :=
  configured &&& DatabaseFlags.allBits

/-- Embeds `Environment::get_db_flags` (src/src/environment.rs lines 93-100):
applies `DatabaseFlags::from_bits(..).unwrap()` to the bits reported by
`mdb_dbi_flags`; the `none` outcome models the panic of `unwrap`. -/
def Environment.get_db_flags (reported : Nat) : Option Nat :=
  DatabaseFlags.from_bits reported

/-- Embeds `TransactionExt::db_flags` (src/src/transaction.rs lines 97-103):
applies `DatabaseFlags::from_bits_truncate` to the bits reported by
`mdb_dbi_flags`, silently truncating unknown bits. -/
def TransactionExt.db_flags (reported : Nat) : Nat :=
  DatabaseFlags.from_bits_truncate reported

/-! ### Cursors and the Items iteration adapter (src/src/cursor.rs) -/

/-- The cursor operations the iteration adapter uses, with the values the
`repr(C)` enumeration `MDB_cursor_op` assigns them in src/lmdb-sys/src/lib.rs
(`MDB_FIRST` is the first variant, `MDB_NEXT` the ninth). -/
def MDB_FIRST : Nat := 0

/-- See `MDB_FIRST`. -/
def MDB_NEXT : Nat := 8

/-- Modelled from the spec: an engine cursor — a movable position within one
database, scoped to one transaction (spec section 3).  `position` is the index
of the current item, or `none` before the first positioning operation. -/
structure MDB_cursor where
  entries : List (Bytes × Bytes)
  position : Option Nat
  deriving DecidableEq

/-- Modelled from the spec: `mdb_cursor_get` for the operations of the
sequential iteration view (spec section 4.3) — `MDB_FIRST` positions at the
first key/data item, `MDB_NEXT` advances to the next item (positioning at the
first on an unpositioned cursor), and either reports `MDB_NOTFOUND` at the end
of the keyspace.  Operations outside this model report `EINVAL` (22).  Returns
the status, the updated cursor, and the key and data at the new position. -/
def mdb_cursor_get (c : MDB_cursor) (op : Nat) : Int × MDB_cursor × Bytes × Bytes :=
  if op = MDB_FIRST then
    match c.entries with
    | [] => (MDB_NOTFOUND, c, [], [])
    | e :: _ => (MDB_SUCCESS, { c with position := some 0 }, e.1, e.2)
  else if op = MDB_NEXT then
    match c.position with
    | none =>
      match c.entries with
      | [] => (MDB_NOTFOUND, c, [], [])
      | e :: _ => (MDB_SUCCESS, { c with position := some 0 }, e.1, e.2)
    | some i =>
      match c.entries[i + 1]? with
      | some e => (MDB_SUCCESS, { c with position := some (i + 1) }, e.1, e.2)
      | none => (MDB_NOTFOUND, c, [], [])
  else (22, c, [], [])

/-- The `Items` adapter (src/src/cursor.rs lines 178-196): holds the cursor,
the operation to apply on the next call (`op`, initially `MDB_FIRST`) and the
operation every later call switches to (`next_op`, `MDB_NEXT`). -/
structure Items where
  cursor : MDB_cursor
  op : Nat
  next_op : Nat
  deriving DecidableEq

/-- Embeds `Items::new` (src/src/cursor.rs lines 188-195): opens a fresh,
unpositioned cursor on the database and starts the adapter at `MDB_FIRST`
with `MDB_NEXT` as the subsequent operation. -/
def Items.new (entries : List (Bytes × Bytes)) : Items :=
  ⟨⟨entries, none⟩, MDB_FIRST, MDB_NEXT⟩

/-- Outcome of one `Items::next` call: a yielded key/value pair with the
successor state, the end of the iteration (`None` in Rust), or a failed
`debug_assert` for a status that is neither success nor `MDB_NOTFOUND`. -/
inductive NextOutcome where
  | yield (key data : Bytes) (s : Items)
  | done (s : Items)
  | assertFail (code : Int)
  deriving DecidableEq

/-- Embeds `Items::next` (src/src/cursor.rs lines 200-220): runs
`mdb_cursor_get` with the pending operation; `MDB_NOTFOUND` ends the
iteration; otherwise the code asserts that the status is success
(`debug_assert`, modelled as the `assertFail` outcome when it trips), switches
the pending operation to `next_op`, and yields the key/data pair. -/
def Items.next (s : Items) : NextOutcome :=
  let r := mdb_cursor_get s.cursor s.op
  if r.1 = MDB_NOTFOUND then .done { s with cursor := r.2.1 }
  else if r.1 = MDB_SUCCESS then
    .yield r.2.2.1 r.2.2.2 { cursor := r.2.1, op := s.next_op, next_op := s.next_op }
  else .assertFail r.1

/-- Drives `Items::next` like a Rust `for` loop: collects yielded pairs until
the adapter stops yielding or the fuel runs out. -/
def Items.run : Nat → Items → List (Bytes × Bytes)
  | 0, _ => []
  | fuel + 1, s =>
    match s.next with
    | .yield key data s' => (key, data) :: Items.run fuel s'
    | _ => []

/-! ### Theorems -/

/-- Helper: the wrapper-level get is the first stored value, or `NotFound`. -/
theorem get_eq_firstValue (s : Store) (key : Bytes) :
    TransactionExt.get s key =
      (match firstValue key s.data with
       | some v => .ok v
       | none => .error .NotFound) := by
  cases h : firstValue key s.data <;>
    simp [TransactionExt.get, mdb_get, h, MDB_NOTFOUND, MDB_SUCCESS] <;> decide

/-- Helper: `firstValue` is the head of the key's duplicate list. -/
theorem firstValue_eq_head (key : Bytes) (l : List (Bytes × Bytes)) :
    firstValue key l = (valuesFor key l).head? := by
  induction l with
  | nil => rfl
  | cons e t ih => by_cases h : e.1 = key <;> simp [firstValue, valuesFor, h, ih]

/-- Helper: after a unique-key put, the first stored value for the key is the
value just written. -/
theorem firstValue_putUnique (key val : Bytes) (l : List (Bytes × Bytes)) :
    firstValue key (putUnique key val l) = some val := by
  induction l with
  | nil => simp [putUnique, firstValue]
  | cons e t ih =>
    by_cases h1 : e.1 = key
    · simp [putUnique, h1, firstValue]
    · by_cases h2 : bytesLt key e.1 <;> simp [putUnique, h1, h2, firstValue, ih]

/-- Helper: an entry survives `removeKey` exactly when it was present and does
not carry the removed key. -/
theorem mem_removeKey (key : Bytes) (e : Bytes × Bytes) (l : List (Bytes × Bytes)) :
    e ∈ removeKey key l ↔ e ∈ l ∧ e.1 ≠ key := by
  induction l with
  | nil => simp [removeKey]
  | cons a t ih =>
    by_cases h : a.1 = key
    · rw [removeKey, if_pos h, ih]
      constructor
      · exact fun ⟨he, hk⟩ => ⟨List.mem_cons_of_mem a he, hk⟩
      · intro ⟨hmem, hk⟩
        rcases List.mem_cons.mp hmem with rfl | he
        · exact absurd h hk
        · exact ⟨he, hk⟩
    · rw [removeKey, if_neg h]
      simp only [List.mem_cons, ih]
      constructor
      · rintro (rfl | ⟨he, hk⟩)
        · exact ⟨.inl rfl, h⟩
        · exact ⟨.inr he, hk⟩
      · rintro ⟨rfl | he, hk⟩
        · exact .inl rfl
        · exact .inr ⟨he, hk⟩

/-- Helper: after `removeKey` the key has no first value left. -/
theorem firstValue_removeKey (key : Bytes) (l : List (Bytes × Bytes)) :
    firstValue key (removeKey key l) = none := by
  induction l with
  | nil => rfl
  | cons a t ih => by_cases h : a.1 = key <;> simp [removeKey, h, firstValue, ih]

/-- Helper: `removePair` splits the list at the first occurrence of the exact
pair and removes only that occurrence. -/
theorem removePair_exact (key val : Bytes) (l : List (Bytes × Bytes))
    (h : hasPair key val l = true) :
    ∃ l₁ l₂, l = l₁ ++ (key, val) :: l₂ ∧ (key, val) ∉ l₁ ∧
      removePair key val l = l₁ ++ l₂ := by
  induction l with
  | nil => cases h
  | cons a t ih =>
    by_cases ha : a = (key, val)
    · exact ⟨[], t, by simp [ha], by simp, by simp [removePair, ha]⟩
    · have h' : hasPair key val t = true := by
        rw [hasPair, if_neg ha] at h; exact h
      obtain ⟨l₁, l₂, heq, hnot, hrem⟩ := ih h'
      refine ⟨a :: l₁, l₂, by simp [heq], ?_, by simp [removePair, ha, hrem]⟩
      intro hmem
      rcases List.mem_cons.mp hmem with hh | hh
      · exact ha hh.symm
      · exact hnot hh

/-- C3: `get` returns a value exactly for present keys — when the key has at
least one stored data item it returns the first of the possibly many values
(the head of the duplicate list, in engine order), and when the key has none
it returns the `NotFound` error. -/
theorem get_first_or_notfound (s : Store) (key : Bytes) :
    (valuesFor key s.data = [] → TransactionExt.get s key = .error .NotFound) ∧
    (∀ v vs, valuesFor key s.data = v :: vs → TransactionExt.get s key = .ok v) := by
  constructor
  · intro h
    rw [get_eq_firstValue, firstValue_eq_head, h]
    rfl
  · intro v vs h
    rw [get_eq_firstValue, firstValue_eq_head, h]
    rfl

/-- Witness for C3: a present key yields its first duplicate, an absent key
yields `NotFound`, on a concrete store. -/
theorem get_first_or_notfound_witness :
    TransactionExt.get ⟨[([1], [2]), ([1], [9])], true⟩ [1] = .ok [2] ∧
    TransactionExt.get ⟨[([1], [2]), ([1], [9])], true⟩ [7] = .error .NotFound :=
  ⟨(get_first_or_notfound ⟨[([1], [2]), ([1], [9])], true⟩ [1]).2 [2] [[9]] (by decide),
   (get_first_or_notfound ⟨[([1], [2]), ([1], [9])], true⟩ [7]).1 (by decide)⟩

/-- C1 (amended): round-trip law — a key/value pair stored with `put` on a
database without sorted duplicates and made durable with an accepted `commit`
is read back exactly by `get` in a transaction begun on the committed
environment; on a duplicate-sorted database `get` instead returns the first
of the key's duplicates, which may differ from the bytes written. -/
theorem put_commit_get_roundtrip (env : Environment) (key val : Bytes) (c : Int)
    (hdup : env.store.dupSort = false) (hc : c = MDB_SUCCESS) :
    ((env.begin_rw_txn.put key val).2 = .ok ()) ∧
    ((RwTransaction.commit env (env.begin_rw_txn.put key val).1 c).2 = .ok ()) ∧
    TransactionExt.get
      ((RwTransaction.commit env (env.begin_rw_txn.put key val).1 c).1.begin_ro_txn).snapshot
      key = .ok val := by
  subst hc
  refine ⟨rfl, rfl, ?_⟩
  have hsnap :
      ((RwTransaction.commit env (env.begin_rw_txn.put key val).1 MDB_SUCCESS).1.begin_ro_txn).snapshot
        = (mdb_put env.store key val).1 := rfl
  rw [hsnap, get_eq_firstValue]
  simp [mdb_put, hdup, firstValue_putUnique]

/-- C1 counterexample: on a duplicate-sorted database already holding the
pair `([1], [0])`, the pair `([1], [2])` is stored with `put` (success) and
made durable with an accepted `commit`, yet `get` in a transaction begun on
the committed environment returns the first duplicate `[0]`, not the bytes
`[2]` that were written — so the unqualified round-trip law fails. -/
theorem put_commit_get_roundtrip_counterexample :
    ((Environment.begin_rw_txn ⟨⟨[([1], [0])], true⟩⟩).put [1] [2]).2 = .ok () ∧
    (RwTransaction.commit ⟨⟨[([1], [0])], true⟩⟩
        ((Environment.begin_rw_txn ⟨⟨[([1], [0])], true⟩⟩).put [1] [2]).1 0).2 = .ok () ∧
    TransactionExt.get
      ((RwTransaction.commit ⟨⟨[([1], [0])], true⟩⟩
          ((Environment.begin_rw_txn ⟨⟨[([1], [0])], true⟩⟩).put [1] [2]).1 0).1.begin_ro_txn).snapshot
      [1] = .ok [0] ∧
    TransactionExt.get
      ((RwTransaction.commit ⟨⟨[([1], [0])], true⟩⟩
          ((Environment.begin_rw_txn ⟨⟨[([1], [0])], true⟩⟩).put [1] [2]).1 0).1.begin_ro_txn).snapshot
      [1] ≠ .ok [2] := by
  refine ⟨rfl, rfl, rfl, fun h => ?_⟩
  exact absurd (Except.ok.inj h) (by decide)

/-- Witness for C1 on a concrete empty environment. -/
theorem put_commit_get_roundtrip_witness :
    ((Environment.begin_rw_txn ⟨⟨[], false⟩⟩).put [1] [2]).2 = .ok () ∧
    ((RwTransaction.commit ⟨⟨[], false⟩⟩ ((Environment.begin_rw_txn ⟨⟨[], false⟩⟩).put [1] [2]).1 0).2 = .ok ()) ∧
    TransactionExt.get
      ((RwTransaction.commit ⟨⟨[], false⟩⟩ ((Environment.begin_rw_txn ⟨⟨[], false⟩⟩).put [1] [2]).1 0).1.begin_ro_txn).snapshot
      [1] = .ok [2] :=
  put_commit_get_roundtrip ⟨⟨[], false⟩⟩ [1] [2] 0 rfl rfl

/-- C4: `del` with no data item removes every duplicate of the key (after
which `get` reports `NotFound`); with a data item on a duplicate-sorted
database it removes exactly the first occurrence of the matching pair,
keeping every other entry; and when the addressed key or pair is absent it
returns the `NotFound` error leaving the transaction's database unchanged. -/
theorem del_removes_or_notfound (t : RwTransaction) (key val : Bytes) :
    (hasKey key t.pending.data = true →
      (t.del key none).2 = .ok () ∧
      (∀ e, e ∈ (t.del key none).1.pending.data ↔ e ∈ t.pending.data ∧ e.1 ≠ key) ∧
      TransactionExt.get (t.del key none).1.pending key = .error .NotFound) ∧
    (t.pending.dupSort = true → hasPair key val t.pending.data = true →
      (t.del key (some val)).2 = .ok () ∧
      ∃ l₁ l₂, t.pending.data = l₁ ++ (key, val) :: l₂ ∧ (key, val) ∉ l₁ ∧
        (t.del key (some val)).1.pending.data = l₁ ++ l₂) ∧
    (hasKey key t.pending.data = false → t.del key none = (t, .error .NotFound)) ∧
    (t.pending.dupSort = true → hasPair key val t.pending.data = false →
      t.del key (some val) = (t, .error .NotFound)) := by
  refine ⟨fun hk => ?_, fun hd hp => ?_, fun hk => ?_, fun hd hp => ?_⟩
  · refine ⟨by simp [RwTransaction.del, mdb_del, hk, lmdb_result, MDB_SUCCESS], fun e => ?_, ?_⟩
    · have hdata : (t.del key none).1.pending.data = removeKey key t.pending.data := by
        simp [RwTransaction.del, mdb_del, hk]
      rw [hdata, mem_removeKey]
    · have hdata : (t.del key none).1.pending.data = removeKey key t.pending.data := by
        simp [RwTransaction.del, mdb_del, hk]
      rw [get_eq_firstValue, hdata, firstValue_removeKey]
  · obtain ⟨l₁, l₂, heq, hnot, hrem⟩ := removePair_exact key val t.pending.data hp
    refine ⟨by simp [RwTransaction.del, mdb_del, hd, hp, lmdb_result, MDB_SUCCESS],
            l₁, l₂, heq, hnot, ?_⟩
    simp [RwTransaction.del, mdb_del, hd, hp, hrem]
  · simp [RwTransaction.del, mdb_del, hk, lmdb_result, MDB_NOTFOUND, MDB_SUCCESS]
    decide
  · simp [RwTransaction.del, mdb_del, hd, hp, lmdb_result, MDB_NOTFOUND, MDB_SUCCESS]
    decide

/-- Helper: once the adapter is positioned at index `i` with `MDB_NEXT`
pending, running it yields exactly the entries after index `i`. -/
theorem items_run_after (l : List (Bytes × Bytes)) :
    ∀ fuel i, l.length ≤ i + 1 + fuel →
      Items.run fuel ⟨⟨l, some i⟩, MDB_NEXT, MDB_NEXT⟩ = l.drop (i + 1) := by
  intro fuel
  induction fuel with
  | zero =>
    intro i h
    simp only [Items.run]
    exact (List.drop_eq_nil_of_le (by omega)).symm
  | succ n ih =>
    intro i h
    cases hget : l[i + 1]? with
    | none =>
      have hlen : l.length ≤ i + 1 := by
        by_contra hlt
        push_neg at hlt
        rw [List.getElem?_eq_getElem hlt] at hget
        cases hget
      rw [List.drop_eq_nil_of_le hlen]
      simp [Items.run, Items.next, mdb_cursor_get, MDB_FIRST, MDB_NEXT, MDB_NOTFOUND, hget]
    | some e =>
      have hlt : i + 1 < l.length := by
        by_contra hge
        push_neg at hge
        rw [List.getElem?_eq_none hge] at hget
        cases hget
      have he : l[i + 1] = e := by
        rw [List.getElem?_eq_getElem hlt] at hget
        exact Option.some.inj hget
      rw [List.drop_eq_getElem_cons hlt, he]
      have hstep :
          Items.run (n + 1) ⟨⟨l, some i⟩, MDB_NEXT, MDB_NEXT⟩ =
            (e.1, e.2) :: Items.run n ⟨⟨l, some (i + 1)⟩, MDB_NEXT, MDB_NEXT⟩ := by
        simp [Items.run, Items.next, mdb_cursor_get, MDB_FIRST, MDB_NEXT, MDB_NOTFOUND,
          MDB_SUCCESS, hget]
      rw [hstep, ih (i + 1) (by omega)]

/-- C6: the cursor iteration adapter is a forward lazy sequence — started at
`MDB_FIRST` and advanced by `MDB_NEXT` (by construction of `Items.new` and the
`op`/`next_op` switch in `next`), driving it yields exactly the database's
key/value pairs in order for any sufficient fuel (so the pass is finite and a
fresh adapter is needed to see the entries again), and a call ends the
iteration (`None`) precisely when the cursor reports `MDB_NOTFOUND`. -/
theorem items_forward_iteration (entries : List (Bytes × Bytes)) (fuel : Nat)
    (hfuel : entries.length + 1 ≤ fuel) :
    Items.run fuel (Items.new entries) = entries ∧
    (∀ s : Items, (∃ s', Items.next s = NextOutcome.done s') ↔
      (mdb_cursor_get s.cursor s.op).1 = MDB_NOTFOUND) := by
  constructor
  · obtain ⟨n, rfl⟩ : ∃ n, fuel = n + 1 := ⟨fuel - 1, by omega⟩
    cases entries with
    | nil => simp [Items.run, Items.new, Items.next, mdb_cursor_get, MDB_FIRST, MDB_NOTFOUND]
    | cons e t =>
      have hstep :
          Items.run (n + 1) (Items.new (e :: t)) =
            (e.1, e.2) :: Items.run n ⟨⟨e :: t, some 0⟩, MDB_NEXT, MDB_NEXT⟩ := by
        simp [Items.run, Items.new, Items.next, mdb_cursor_get, MDB_FIRST, MDB_NOTFOUND,
          MDB_SUCCESS]
      rw [hstep, items_run_after (e :: t) n 0 (by simp only [List.length_cons] at hfuel ⊢; omega)]
      simp
  · intro s
    by_cases h1 : (mdb_cursor_get s.cursor s.op).1 = MDB_NOTFOUND
    · simp [Items.next, h1]
    · by_cases h2 : (mdb_cursor_get s.cursor s.op).1 = MDB_SUCCESS <;>
        simp [Items.next, h1, h2, show MDB_SUCCESS ≠ MDB_NOTFOUND by decide]

/-- Witness for C6: driving the adapter over a concrete three-entry database
yields exactly its entries. -/
theorem items_forward_iteration_witness :
    Items.run 4 (Items.new [([1], [2]), ([3], [4]), ([5], [6])]) =
      [([1], [2]), ([3], [4]), ([5], [6])] :=
  (items_forward_iteration [([1], [2]), ([3], [4]), ([5], [6])] 4 (by decide)).1

/-- C7: in `Items::next` the branch that yields a key/value pair is reached
only when the cursor-get status is success, and any status other than success
or the `MDB_NOTFOUND` sentinel trips the assertion (the `assertFail` outcome)
instead of being silently swallowed. -/
theorem items_next_asserts_status (s : Items) :
    (∀ key data s', Items.next s = NextOutcome.yield key data s' →
      (mdb_cursor_get s.cursor s.op).1 = MDB_SUCCESS) ∧
    ((mdb_cursor_get s.cursor s.op).1 ≠ MDB_SUCCESS →
      (mdb_cursor_get s.cursor s.op).1 ≠ MDB_NOTFOUND →
      Items.next s = NextOutcome.assertFail (mdb_cursor_get s.cursor s.op).1) := by
  constructor
  · intro key data s' h
    by_cases h1 : (mdb_cursor_get s.cursor s.op).1 = MDB_NOTFOUND
    · simp [Items.next, h1] at h
    · by_cases h2 : (mdb_cursor_get s.cursor s.op).1 = MDB_SUCCESS
      · exact h2
      · simp [Items.next, h1, h2] at h
  · intro h2 h1
    simp [Items.next, h1, h2]

/-- Witness for C7: an out-of-model cursor operation produces a non-success,
non-`MDB_NOTFOUND` status, and the adapter surfaces it as a failed assertion. -/
theorem items_next_asserts_status_witness :
    Items.next ⟨⟨[([1], [2])], none⟩, 5, 8⟩ = NextOutcome.assertFail 22 :=
  (items_next_asserts_status ⟨⟨[([1], [2])], none⟩, 5, 8⟩).2 (by decide) (by decide)

/-- Witness for C4 on a concrete duplicate-sorted transaction. -/
theorem del_removes_or_notfound_witness :
    ((RwTransaction.del ⟨⟨[([1], [2]), ([1], [3])], true⟩⟩ [1] none).2 = .ok ()) ∧
    TransactionExt.get
      (RwTransaction.del ⟨⟨[([1], [2]), ([1], [3])], true⟩⟩ [1] none).1.pending [1] =
        .error .NotFound ∧
    RwTransaction.del ⟨⟨[([1], [2]), ([1], [3])], true⟩⟩ [7] none =
      (⟨⟨[([1], [2]), ([1], [3])], true⟩⟩, .error .NotFound) :=
  ⟨((del_removes_or_notfound ⟨⟨[([1], [2]), ([1], [3])], true⟩⟩ [1] []).1 (by decide)).1,
   ((del_removes_or_notfound ⟨⟨[([1], [2]), ([1], [3])], true⟩⟩ [1] []).1 (by decide)).2.2,
   ((del_removes_or_notfound ⟨⟨[([1], [2]), ([1], [3])], true⟩⟩ [7] []).2.2.1 (by decide))⟩

/-- C8: for every engine status code `c`, `lmdb_result c` returns `Ok(())` if
and only if `c` equals `MDB_SUCCESS`; otherwise it returns `Err` carrying
exactly the one error kind `from_err_code` determines from `c`.  Expected
conditions such as `MDB_NOTFOUND` and `MDB_KEYEXIST` come back as the
`NotFound` and `KeyExist` error values of the total function — never as a
panic, which has no counterpart in the embedding. -/
theorem lmdb_result_ok_iff_success (c : Int) :
    (lmdb_result c = .ok () ↔ c = MDB_SUCCESS) ∧
    (c ≠ MDB_SUCCESS → lmdb_result c = .error (LmdbError.from_err_code c)) ∧
    lmdb_result MDB_NOTFOUND = .error .NotFound ∧
    lmdb_result MDB_KEYEXIST = .error .KeyExist := by
  refine ⟨⟨fun h => ?_, fun h => by simp [lmdb_result, h]⟩,
          fun h => by simp [lmdb_result, h], rfl, rfl⟩
  by_contra hc
  simp [lmdb_result, hc] at h

/-- Witness for C8 at the concrete status `MDB_NOTFOUND`. -/
theorem lmdb_result_ok_iff_success_witness :
    lmdb_result (-30798) = .error (LmdbError.from_err_code (-30798)) :=
  (lmdb_result_ok_iff_success (-30798)).2.1 (by decide)

/-- C9: error-code round-trip — for every raw engine status code `c`,
`to_err_code (from_err_code c) = c`; the twenty named kinds map back to their
defining codes and every unrecognized code is preserved verbatim through the
`Other` fallback. -/
theorem to_err_code_from_err_code (c : Int) :
    (LmdbError.from_err_code c).to_err_code = c := by
  by_cases h1 : c = MDB_KEYEXIST
  · subst h1; decide
  by_cases h2 : c = MDB_NOTFOUND
  · subst h2; decide
  by_cases h3 : c = MDB_PAGE_NOTFOUND
  · subst h3; decide
  by_cases h4 : c = MDB_CORRUPTED
  · subst h4; decide
  by_cases h5 : c = MDB_PANIC
  · subst h5; decide
  by_cases h6 : c = MDB_VERSION_MISMATCH
  · subst h6; decide
  by_cases h7 : c = MDB_INVALID
  · subst h7; decide
  by_cases h8 : c = MDB_MAP_FULL
  · subst h8; decide
  by_cases h9 : c = MDB_DBS_FULL
  · subst h9; decide
  by_cases h10 : c = MDB_READERS_FULL
  · subst h10; decide
  by_cases h11 : c = MDB_TLS_FULL
  · subst h11; decide
  by_cases h12 : c = MDB_TXN_FULL
  · subst h12; decide
  by_cases h13 : c = MDB_CURSOR_FULL
  · subst h13; decide
  by_cases h14 : c = MDB_PAGE_FULL
  · subst h14; decide
  by_cases h15 : c = MDB_MAP_RESIZED
  · subst h15; decide
  by_cases h16 : c = MDB_INCOMPATIBLE
  · subst h16; decide
  by_cases h17 : c = MDB_BAD_RSLOT
  · subst h17; decide
  by_cases h18 : c = MDB_BAD_TXN
  · subst h18; decide
  by_cases h19 : c = MDB_BAD_VALSIZE
  · subst h19; decide
  by_cases h20 : c = MDB_BAD_DBI
  · subst h20; decide
  simp only [LmdbError.from_err_code, if_neg h1, if_neg h2, if_neg h3, if_neg h4, if_neg h5,
    if_neg h6, if_neg h7, if_neg h8, if_neg h9, if_neg h10, if_neg h11, if_neg h12, if_neg h13,
    if_neg h14, if_neg h15, if_neg h16, if_neg h17, if_neg h18, if_neg h19, if_neg h20,
    LmdbError.to_err_code]

/-- C10: `Environment::get_db_flags` never panics — the bits `mdb_dbi_flags`
reports for a database always lie within the known `DatabaseFlags` set, so the
internal `from_bits(..).unwrap()` succeeds for every database handle; by
contrast `TransactionExt::db_flags` truncates unknown bits (and `from_bits`
alone is partial on them). -/
theorem get_db_flags_never_panics (configured : Nat) :
    Environment.get_db_flags (mdb_dbi_flags configured) = some (mdb_dbi_flags configured) ∧
    TransactionExt.db_flags (mdb_dbi_flags configured) = mdb_dbi_flags configured ∧
    Environment.get_db_flags 0x80 = none ∧
    TransactionExt.db_flags 0x86 = 0x06 := by
  have key : ∀ a m : Nat, a &&& m &&& m = a &&& m := by
    intro a m
    apply Nat.eq_of_testBit_eq
    intro i
    simp [Nat.testBit_and, Bool.and_assoc]
  refine ⟨?_, ?_, by decide, by decide⟩
  · simp [Environment.get_db_flags, DatabaseFlags.from_bits, mdb_dbi_flags, key]
  · simp [TransactionExt.db_flags, DatabaseFlags.from_bits_truncate, mdb_dbi_flags, key]

/-- C5 (code bug): `RwTransaction::begin_nested_txn` does NOT translate the
engine's status through the error taxonomy — it discards the status of
`mdb_txn_begin` and returns a constructed child transaction unconditionally,
so even for a failing status such as `MDB_BAD_TXN` it does not produce the
typed error; the top-level constructor `RwTransaction::new` shows the checked
pattern the claim (and the spec) describe. -/
theorem begin_nested_txn_ignores_status (t : RwTransaction) (c : Int) :
    RwTransaction.begin_nested_txn t c = .ok ⟨t.pending⟩ ∧
    RwTransaction.begin_nested_txn t MDB_BAD_TXN ≠
      .error (LmdbError.from_err_code MDB_BAD_TXN) ∧
    RwTransaction.new ⟨t.pending⟩ MDB_BAD_TXN = .error .BadTxn := by
  exact ⟨rfl, fun h => Except.noConfusion h, rfl⟩

/-- C2: commit atomicity — when the engine accepts the commit the pending
writes become the committed contents; when the engine rejects it with any
nonzero status, `commit` returns the corresponding typed error (for instance
`MapFull` for `MDB_MAP_FULL`) and the committed contents are exactly what they
were before, so no pending write becomes visible. -/
theorem commit_atomicity (env : Environment) (t : RwTransaction) (c : Int) :
    (c = MDB_SUCCESS → RwTransaction.commit env t c = (⟨t.pending⟩, .ok ())) ∧
    (c ≠ MDB_SUCCESS →
      (RwTransaction.commit env t c).1 = env ∧
      (RwTransaction.commit env t c).2 = .error (LmdbError.from_err_code c)) ∧
    (RwTransaction.commit env t MDB_MAP_FULL).1 = env ∧
    (RwTransaction.commit env t MDB_MAP_FULL).2 = .error .MapFull := by
  refine ⟨fun h => ?_, fun h => ?_, rfl, rfl⟩
  · subst h; rfl
  · constructor <;> simp [RwTransaction.commit, mdb_txn_commit, lmdb_result, h]

/-- Witness for C2: a rejected commit (status `MDB_MAP_FULL`) on a concrete
environment leaves it unchanged and reports the `MapFull` error. -/
theorem commit_atomicity_witness :
    (RwTransaction.commit ⟨⟨[], false⟩⟩ ⟨⟨[([1], [2])], false⟩⟩ (-30792)).1 = ⟨⟨[], false⟩⟩ ∧
    (RwTransaction.commit ⟨⟨[], false⟩⟩ ⟨⟨[([1], [2])], false⟩⟩ (-30792)).2 =
      .error (LmdbError.from_err_code (-30792)) :=
  (commit_atomicity ⟨⟨[], false⟩⟩ ⟨⟨[([1], [2])], false⟩⟩ (-30792)).2.1 (by decide)
